import Mathlib

/-!
Shallow embedding of the AI_sandbox repository (matsushibadenki/AI_sandbox).

The embedding models the three modules the claims are about:

* `database/models.py` and `database/crud.py` — the session record store
  (`Sandbox` records, `CRUD` operations on a list of records standing for
  the `sandboxes` table, in insertion order);
* `sandbox_manager/docker_client.py` — the `DockerClient` wrapper
  (container status probe, find-by-name, stop-and-remove, start, image
  pull, and the in-container code-execution protocol);
* `sandbox_manager/service.py` — `SandboxManagerService` with
  `provision_and_execute_sandbox_session`,
  `monitor_and_regenerate_broken_sandboxes` and
  `cleanup_inactive_sandboxes`.

Machine-level identities are modelled as naturals: record ids (uuid4
strings in the source) and container ids (Docker ids in the source) are
`Nat`, with "fresh id" counters in the state; timestamps
(`datetime.now`) are a `Nat` logical clock bumped on each committing
store operation, which is all the source ever uses them for (ordering by
`last_updated_at`).  Python `Optional` values are `Option`; Python
truthiness of an optional string (`if error_message:`) is
`optStrTruthy`, which is false for both `None` and the empty string.
Exceptions raised to the caller are modelled with `Except String`.
-/

/-- Status enum from `database/models.py` (`SandboxStatus`). -/
inductive SandboxStatus where
  | pending
  | running
  | success
  | failed
  | stopped
  | regenerating
deriving DecidableEq, Repr

/-- Container runtime states as returned by the Docker daemon and
compared against string literals in the source (`"running"`,
`"exited"`, `"created"`, `"dead"`, `"paused"`, `"restarting"`,
`"removing"`); `otherState` stands for any further string, which the
source lumps into its final `else` branch. -/
inductive ContainerState where
  | running
  | exited
  | created
  | dead
  | paused
  | restarting
  | removing
  | otherState
deriving DecidableEq, Repr

/-- One row of the `sandboxes` table (`database/models.py`, class
`Sandbox`).  Field names follow the source columns. -/
structure Sandbox where
  id : Nat
  container_id : Option Nat
  status : SandboxStatus
  created_at : Nat
  last_updated_at : Nat
  llm_agent_id : String
  code_to_execute : String
  execution_result : Option String
  error_message : Option String
  resource_limits_applied : Option String
  is_active : Bool
  base_image : String
  exit_code : Option Int
deriving DecidableEq, Repr

/-- One container known to the Docker daemon. -/
structure DContainer where
  cid : Nat
  cname : String
  cstate : ContainerState
deriving DecidableEq, Repr

/-- The Docker daemon state: its containers and a fresh-id source for
containers created by `start_container`. -/
structure DockerState where
  containers : List DContainer
  nextCid : Nat
deriving DecidableEq, Repr

/-- Combined state: the record store (table rows in insertion order), the
Docker daemon, a fresh-id source for new records, and the logical clock
feeding `created_at` / `last_updated_at`. -/
structure World where
  db : List Sandbox
  docker : DockerState
  nextRid : Nat
  now : Nat
deriving DecidableEq, Repr

/-- Python truthiness of an `Optional[str]`: `None` and `""` are falsy. -/
def optStrTruthy : Option String → Bool
  | none => false
  | some s => !(s = "")

/-- Update the first list entry satisfying `p` by `f`, returning the
updated entry (the `session.refresh`ed row) and the new list.  Models a
SQLAlchemy `query(...).filter(id == ...).first()` followed by a mutation
and commit. -/
def updFirst (p : Sandbox → Bool) (f : Sandbox → Sandbox) : List Sandbox → Option Sandbox × List Sandbox
  | [] => (none, [])
  | r :: rs =>
    if p r then (some (f r), f r :: rs)
    else
      let res := updFirst p f rs
      (res.1, r :: res.2)

/-- Remove the first list entry satisfying `p`; the `Bool` tells whether
one was removed.  Models `session.delete` after a `first()` lookup. -/
def removeFirst (p : Sandbox → Bool) : List Sandbox → Bool × List Sandbox
  | [] => (false, [])
  | r :: rs =>
    if p r then (true, rs)
    else
      let res := removeFirst p rs
      (res.1, r :: res.2)

/-- Field assignments performed by `CRUD.update_sandbox_status`
(`database/crud.py` lines 42-51): `status` is always overwritten;
`container_id`, `execution_result`, `error_message` only when the
argument is truthy; `exit_code` when the argument `is not None`; and the
`onupdate=datetime.now` column `last_updated_at` is refreshed by the
commit. -/
def updApply (now : Nat) (status : SandboxStatus) (container_id : Option Nat)
    (execution_result : Option String) (error_message : Option String)
    (exit_code : Option Int) (r : Sandbox) : Sandbox :=
  { r with
    status := status
    container_id := if container_id.isSome then container_id else r.container_id
    execution_result := if optStrTruthy execution_result then execution_result else r.execution_result
    error_message := if optStrTruthy error_message then error_message else r.error_message
    exit_code := if exit_code.isSome then exit_code else r.exit_code
    last_updated_at := now }

/-- `CRUD.update_sandbox_status`: partial update of the row with the
given id; returns the refreshed row (or `none` when no row matches) plus
the new table and clock.  The clock advances only when a commit
happened. -/
def update_sandbox_status (db : List Sandbox) (now : Nat) (sandbox_id : Nat)
    (status : SandboxStatus) (container_id : Option Nat)
    (execution_result : Option String) (error_message : Option String)
    (exit_code : Option Int) : Option Sandbox × List Sandbox × Nat :=
  let res := updFirst (fun r => decide (r.id = sandbox_id))
    (updApply now status container_id execution_result error_message exit_code) db
  match res.1 with
  | some u => (some u, res.2, now + 1)
  | none => (none, res.2, now)

/-- `CRUD.deactivate_sandbox`: sets `is_active := False` on the row with
the given id. -/
def deactivate_sandbox (db : List Sandbox) (now : Nat) (sandbox_id : Nat) :
    Option Sandbox × List Sandbox × Nat :=
  let res := updFirst (fun r => decide (r.id = sandbox_id))
    (fun r => { r with is_active := false, last_updated_at := now }) db
  match res.1 with
  | some u => (some u, res.2, now + 1)
  | none => (none, res.2, now)

/-- `CRUD.create_sandbox`: inserts a fresh row with the model defaults
(`status = PENDING`, `is_active = True`, nullable columns `NULL`). -/
def create_sandbox (db : List Sandbox) (now nextRid : Nat)
    (llm_agent_id code_to_execute base_image : String)
    (resource_limits : String) : Sandbox × List Sandbox × Nat × Nat :=
  let r : Sandbox :=
    { id := nextRid
      container_id := none
      status := SandboxStatus.pending
      created_at := now
      last_updated_at := now
      llm_agent_id := llm_agent_id
      code_to_execute := code_to_execute
      execution_result := none
      error_message := none
      resource_limits_applied := some resource_limits
      is_active := true
      base_image := base_image
      exit_code := none }
  (r, db ++ [r], nextRid + 1, now + 1)

/-- `CRUD.get_all_sandboxes`: every row. -/
def get_all_sandboxes (db : List Sandbox) : List Sandbox := db

/-- `CRUD.get_active_sandboxes` (`database/crud.py` lines 65-73):
`is_active == True` and `status` in `[PENDING, RUNNING, REGENERATING]`.
Note the filter does not admit `FAILED`. -/
def get_active_sandboxes (db : List Sandbox) : List Sandbox :=
  db.filter (fun r =>
    r.is_active && decide (r.status = SandboxStatus.pending ∨
      r.status = SandboxStatus.running ∨ r.status = SandboxStatus.regenerating))

/-- `CRUD.delete_sandbox`: removes the row with the given id, reporting
whether one existed. -/
def delete_sandbox (db : List Sandbox) (sandbox_id : Nat) : Bool × List Sandbox :=
  removeFirst (fun r => decide (r.id = sandbox_id)) db

/-- Remove the first container with the given id. -/
def removeFirstContainer (cid : Nat) : List DContainer → List DContainer
  | [] => []
  | c :: cs => if c.cid = cid then cs else c :: removeFirstContainer cid cs

/-- `DockerClient.get_container_status`: the status string of the
container with the given id, or `None` when the daemon does not know it
(`NotFound`, and likewise on `APIError`). -/
def get_container_status (d : DockerState) (cid : Nat) : Option ContainerState :=
  (d.containers.find? (fun c => decide (c.cid = cid))).map (fun c => c.cstate)

/-- `DockerClient.find_container_by_name`: lookup by container name,
stopped containers included. -/
def find_container_by_name (d : DockerState) (name : String) : Option DContainer :=
  d.containers.find? (fun c => decide (c.cname = name))

/-- `DockerClient.stop_and_remove_container`: stop and force-remove the
container; `NotFound` and `APIError` are swallowed, so the operation is
total. -/
def stop_and_remove_container (d : DockerState) (cid : Nat) : DockerState :=
  { d with containers := removeFirstContainer cid d.containers }

/-- `DockerClient.start_container`: creates and starts a detached
container with the given name; the daemon assigns a fresh id. -/
def start_container (d : DockerState) (name : String) : DContainer × DockerState :=
  let c : DContainer := { cid := d.nextCid, cname := name, cstate := ContainerState.running }
  (c, { containers := d.containers ++ [c], nextCid := d.nextCid + 1 })

/-- First-match replacement of a container state in a container list. -/
def setFirstContainerState : List DContainer → Nat → ContainerState → List DContainer
  | [], _, _ => []
  | c :: cs, cid, st =>
    if c.cid = cid then { c with cstate := st } :: cs
    else c :: setFirstContainerState cs cid st

/-- Overwrite the state of the first container with the given id (used
to model the executed code killing its own container, which the service
re-probes afterwards). -/
def set_container_state (d : DockerState) (cid : Nat) (st : ContainerState) : DockerState :=
  { d with containers := setFirstContainerState d.containers cid st }

/-- Outcomes of `images.pull` that `DockerClient.pull_image`
distinguishes (`docker_client.py` lines 19-30). -/
inductive PullOutcome where
  | pulled
  | imageNotFound
  | apiError
deriving DecidableEq, Repr

/-- `DockerClient.pull_image`: returns `True` on success and `False` on
`ImageNotFound`; the `except APIError` handler also returns `False`
(nothing in the body raises to the caller). -/
def pull_image (o : PullOutcome) : Except String Bool :=
  match o with
  | PullOutcome.pulled => Except.ok true
  | PullOutcome.imageNotFound => Except.ok false
  | PullOutcome.apiError => Except.ok false

/-- Stable descending insertion by `last_updated_at`: the new record
goes after every record whose key is at least as large, which is the
placement a stable descending sort gives elements arriving later. -/
def insertNewest (r : Sandbox) : List Sandbox → List Sandbox
  | [] => [r]
  | x :: xs =>
    if r.last_updated_at ≤ x.last_updated_at then x :: insertNewest r xs
    else r :: x :: xs

/-- Stable sort, newest `last_updated_at` first: models
`list.sort(key=lambda x: x.last_updated_at, reverse=True)` from
`service.py` line 43. -/
def sortNewestFirst (l : List Sandbox) : List Sandbox :=
  l.foldl (fun acc r => insertNewest r acc) []

/-- The lookup step of `provision_and_execute_sandbox_session`
(`service.py` lines 34-46): filter all rows to the caller id and base
image, sort newest first, and take the head as the reconciliation
anchor (`None` when nothing matches). -/
def lookupAnchor (db : List Sandbox) (llm_agent_id base_image : String) : Option Sandbox :=
  (sortNewestFirst (db.filter (fun sb =>
    decide (sb.llm_agent_id = llm_agent_id) && decide (sb.base_image = base_image)))).head?

/-- The list of non-running-but-known container states on `service.py`
line 66: `["exited", "created", "dead", "paused", "restarting",
"removing"]`. -/
def restartableState : ContainerState → Bool
  | ContainerState.exited => true
  | ContainerState.created => true
  | ContainerState.dead => true
  | ContainerState.paused => true
  | ContainerState.restarting => true
  | ContainerState.removing => true
  | _ => false

/-- Environment of one `provision_and_execute_sandbox_session` call: the
outcomes of the calls whose results depend on the outside world rather
than on the modelled state.  `pullOk` is what `pull_image` returns;
`startOk` is whether `start_container` succeeds or raises; the `exec`
fields are the `(stdout, stderr, exit_code)` triple returned by
`exec_code_in_container` for the submitted code, and
`execKillsContainer` records whether running that code took the
container down (the service re-probes the container precisely because
this can happen). -/
structure SvcEnv where
  pullOk : Bool
  startOk : Bool
  execOut : Option String
  execErr : Option String
  execExit : Option Int
  execKillsContainer : Bool
deriving DecidableEq, Repr

/-- Python `exit_code != 0` for an `Optional[int]`: `None != 0` is
`True`. -/
def exitNonzero : Option Int → Bool
  | some z => !(z = 0)
  | none => true

/-- The Docker state after the code ran: when the executed code took
the container down, the container now reports `exited`; otherwise the
daemon is untouched. -/
def post_exec_docker (w : World) (cid : Nat) (env : SvcEnv) : DockerState :=
  if env.execKillsContainer then set_container_state w.docker cid ContainerState.exited
  else w.docker

/-- `service.py` line 180: `error if error else None`. -/
def final_error_message_of (env : SvcEnv) : Option String :=
  if optStrTruthy env.execErr then env.execErr else none

/-- `service.py` line 181: `output if output else "No output."`. -/
def final_execution_result_of (env : SvcEnv) : Option String :=
  some (if optStrTruthy env.execOut then env.execOut.getD "" else "No output.")

/-- `service.py` lines 190-195: `FAILED` unless the re-probed container
status is `running`, the exit code is 0, and stderr is empty. -/
def db_status_after_exec_of (post : Option ContainerState) (env : SvcEnv) : SandboxStatus :=
  if !(post = some ContainerState.running) ||
      (exitNonzero env.execExit || optStrTruthy env.execErr) then
    SandboxStatus.failed
  else SandboxStatus.running

/-- Steps 4 of `provision_and_execute_sandbox_session` and the finalize
block (`service.py` lines 168-216): run the code in the resolved
container, re-probe the container, decide `FAILED` vs `RUNNING` by the
probe/exit-code/stderr condition on line 190, persist the results with
the partial update, and return the updated row (falling back to
mutating the in-memory row when the update reports no match). -/
def exec_and_finalize (w : World) (entry : Sandbox) (cid : Nat) (env : SvcEnv) :
    Sandbox × World :=
  let dockerAfter := post_exec_docker w cid env
  let db_status_after_exec :=
    db_status_after_exec_of (get_container_status dockerAfter cid) env
  let upd := update_sandbox_status w.db w.now entry.id db_status_after_exec none
    (final_execution_result_of env) (final_error_message_of env) env.execExit
  let wAfter : World := { w with docker := dockerAfter, db := upd.2.1, now := upd.2.2 }
  match upd.1 with
  | some u => (u, wAfter)
  | none =>
    ({ entry with
        status := db_status_after_exec
        execution_result := final_execution_result_of env
        error_message := final_error_message_of env
        exit_code := env.execExit }, wAfter)

/-- `service.py` lines 109-115: when a Docker container already uses
the session name, stop and remove it so the name cannot collide. -/
def resolveNameConflict (w : World) (container_name : String) : World :=
  match find_container_by_name w.docker container_name with
  | some c => { w with docker := stop_and_remove_container w.docker c.cid }
  | none => w

/-- `service.py` lines 121-128: create the new `PENDING` row; returns
the row and the world after the insert. -/
def createdWorld (w1 : World) (llm_agent_id code base_image resource_limits : String) :
    Sandbox × World :=
  let cr := create_sandbox w1.db w1.now w1.nextRid llm_agent_id code base_image resource_limits
  (cr.1, { w1 with db := cr.2.1, nextRid := cr.2.2.1, now := cr.2.2.2 })

/-- `service.py` lines 137-145: start the container; returns the
container and the world after the start. -/
def startedWorld (w2 : World) (container_name : String) : DContainer × World :=
  let sc := start_container w2.docker container_name
  (sc.1, { w2 with docker := sc.2 })

/-- The body of step 3 after the name conflict is resolved (`service.py`
lines 117-166): pull the image (`ValueError` when `pull_image` returns
`False`), create a `PENDING` row, start the container, update the row
to `RUNNING` with the new container id, and continue with execution;
when `start_container` raises (or the update finds no row), the row is
marked `FAILED` and the error propagates. -/
def provisionCore (w1 : World) (llm_agent_id code base_image container_name : String)
    (resource_limits : String) (env : SvcEnv) : Except String (Sandbox × World) :=
  if env.pullOk then
    let cw := createdWorld w1 llm_agent_id code base_image resource_limits
    if env.startOk then
      let sw := startedWorld cw.2 container_name
      let upd := update_sandbox_status sw.2.db sw.2.now cw.1.id SandboxStatus.running
        (some sw.1.cid) (some "Sandbox session started.") none (some 0)
      let w4 : World := { sw.2 with db := upd.2.1, now := upd.2.2 }
      match upd.1 with
      | some entry => Except.ok (exec_and_finalize w4 entry sw.1.cid env)
      | none =>
        let upd2 := update_sandbox_status w4.db w4.now cw.1.id SandboxStatus.failed
          none none (some "Provisioning error: update failed") none
        let _ : World := { w4 with db := upd2.2.1, now := upd2.2.2 }
        Except.error "Failed to update sandbox with container ID."
    else
      let upd2 := update_sandbox_status cw.2.db cw.2.now cw.1.id SandboxStatus.failed
        none none (some "Provisioning error: start_container raised") none
      let _ : World := { cw.2 with db := upd2.2.1, now := upd2.2.2 }
      Except.error "Failed to start container"
  else Except.error ("Failed to pull Docker image: " ++ base_image)

/-- Step 3 of `provision_and_execute_sandbox_session` (`service.py`
lines 104-166): resolve the name collision, then pull, create, start,
record and execute. -/
def provisionNew (w : World) (llm_agent_id code base_image container_name : String)
    (resource_limits : String) (env : SvcEnv) : Except String (Sandbox × World) :=
  provisionCore (resolveNameConflict w container_name) llm_agent_id code base_image
    container_name resource_limits env

/-- `SandboxManagerService.provision_and_execute_sandbox_session`
(`service.py` lines 22-216), with `base_image` already resolved to the
configured default when the caller passed `None`.  Step 2 follows the
source: a running container is reused after refreshing the row to
`RUNNING`; for a non-running-but-known state the source calls
`self._docker_client.start_existing_container(...)`, a method that
`DockerClient` does not define, so that call raises `AttributeError`
and the `except` branch on line 83 deactivates the anchor and falls
through to provisioning; an unknown or absent container deactivates the
anchor, best-effort removes the container, and falls through to
provisioning. -/
def provision_and_execute_sandbox_session (w : World)
    (llm_agent_id code base_image resource_limits : String) (env : SvcEnv) :
    Except String (Sandbox × World) :=
  let container_name := "sandbox-" ++ llm_agent_id
  match lookupAnchor w.db llm_agent_id base_image with
  | none => provisionNew w llm_agent_id code base_image container_name resource_limits env
  | some anchor =>
    match anchor.container_id with
    | none => provisionNew w llm_agent_id code base_image container_name resource_limits env
    | some cid =>
      match get_container_status w.docker cid with
      | some ContainerState.running =>
        let upd := update_sandbox_status w.db w.now anchor.id SandboxStatus.running
          (some cid) none none (some 0)
        let w2 : World := { w with db := upd.2.1, now := upd.2.2 }
        let entry := upd.1.getD anchor
        Except.ok (exec_and_finalize w2 entry cid env)
      | st =>
        if restartableState (st.getD ContainerState.otherState) && st.isSome then
          let de := deactivate_sandbox w.db w.now anchor.id
          let w2 : World := { w with db := de.2.1, now := de.2.2 }
          provisionNew w2 llm_agent_id code base_image container_name resource_limits env
        else
          let de := deactivate_sandbox w.db w.now anchor.id
          let w2 : World := { w with db := de.2.1, now := de.2.2 }
          let w3 : World := { w2 with docker := stop_and_remove_container w2.docker cid }
          provisionNew w3 llm_agent_id code base_image container_name resource_limits env

/-- One iteration of the repair loop in
`monitor_and_regenerate_broken_sandboxes` (`service.py` lines 237-274):
when the recorded container probes as running, correct the row back to
`RUNNING` and move on; otherwise best-effort remove the container and
deactivate the row.  No code is re-run in either branch. -/
def monitorStep (w : World) (sb : Sandbox) : World :=
  let container_status :=
    match sb.container_id with
    | some cid => get_container_status w.docker cid
    | none => none
  if container_status = some ContainerState.running then
    let upd := update_sandbox_status w.db w.now sb.id SandboxStatus.running none none none (some 0)
    { w with db := upd.2.1, now := upd.2.2 }
  else
    let w1 : World :=
      match sb.container_id with
      | some cid => { w with docker := stop_and_remove_container w.docker cid }
      | none => w
    let de := deactivate_sandbox w1.db w1.now sb.id
    { w1 with db := de.2.1, now := de.2.2 }

/-- `SandboxManagerService.monitor_and_regenerate_broken_sandboxes`
(`service.py` lines 225-276): selects `get_active_sandboxes()` rows
whose status is `FAILED` and repairs each with `monitorStep`. -/
def monitor_and_regenerate_broken_sandboxes (w : World) : World :=
  let broken := (get_active_sandboxes w.db).filter
    (fun sb => decide (sb.status = SandboxStatus.failed))
  broken.foldl monitorStep w

/-- One iteration of `cleanup_inactive_sandboxes` (`service.py` lines
284-298): active rows are skipped; an inactive row first has its
container removed when `find_container_by_name` resolves the session
name to the very container recorded in the row, then the row itself is
deleted. -/
def cleanupStep (w : World) (sb : Sandbox) : World :=
  if sb.is_active then w
  else
    let w1 : World :=
      match sb.container_id with
      | some cid =>
        match find_container_by_name w.docker ("sandbox-" ++ sb.llm_agent_id) with
        | some c =>
          if c.cid = cid then { w with docker := stop_and_remove_container w.docker cid }
          else w
        | none => w
      | none => w
    { w1 with db := (delete_sandbox w1.db sb.id).2 }

/-- `SandboxManagerService.cleanup_inactive_sandboxes` (`service.py`
lines 278-299): iterates over a snapshot of all rows and applies
`cleanupStep` to each. -/
def cleanup_inactive_sandboxes (w : World) : World :=
  (get_all_sandboxes w.db).foldl cleanupStep w

/-- Whether the first list is an initial segment of the second. -/
def leadsWith : List Char → List Char → Bool
  | [], _ => true
  | _ :: _, [] => false
  | p :: ps, c :: cs => decide (p = c) && leadsWith ps cs

/-- Whether `pat` occurs contiguously inside `s` (an empty `pat`
occurs everywhere, as in Python). -/
def occursIn (pat : List Char) : List Char → Bool
  | [] => decide (pat = [])
  | c :: rest => leadsWith pat (c :: rest) || occursIn pat rest

/-- Python substring test `pat in s`. -/
def strContains (s pat : String) : Bool := occursIn pat.data s.data

/-- Interpreter selection of `exec_code_in_container`
(`docker_client.py` lines 70-82): substring match on the image name,
falling back to bash. -/
def interpreterFor (base_image : String) : String :=
  if strContains base_image "python" then "python"
  else if strContains base_image "node" then "node"
  else "bash"

/-- File-extension selection paired with `interpreterFor`. -/
def extensionFor (base_image : String) : String :=
  if strContains base_image "python" then ".py"
  else if strContains base_image "node" then ".js"
  else ".sh"

/-- Which exception, if any, escapes the `try` body of
`exec_code_in_container`; `normal` means the body ran to one of its
`return` statements. -/
inductive TryOutcome where
  | normal
  | notFound
  | apiError
  | otherError
deriving DecidableEq, Repr

/-- Environment of one `exec_code_in_container` call: outcomes of the
Docker API round trips inside it.  `writeExit`/`writeErr` are the exit
code and decoded stderr of the script-write `exec_run` (a `none` stderr
stands for falsy `stderr_bytes`), the `chmod` fields likewise for the
bash fallback, and the `exec` fields for the script run itself.
`excText` is the `str(e)` of the escaped exception, and `cleanupFails`
is whether the temp-file removal in the `finally` block raises. -/
structure ExecEnv where
  tryOutcome : TryOutcome
  excText : String
  writeExit : Option Int
  writeErr : Option String
  chmodExit : Option Int
  chmodErr : Option String
  execExit : Option Int
  execOut : Option String
  execErr : Option String
  cleanupFails : Bool
deriving DecidableEq, Repr

/-- What `exec_code_in_container` hands back: the `(stdout, stderr,
exit_code)` triple, plus a marker that the `finally` cleanup was
reached on this path. -/
structure ExecResult where
  out : Option String
  err : Option String
  exit : Option Int
  cleanupAttempted : Bool
deriving DecidableEq, Repr

/-- `DockerClient.exec_code_in_container` (`docker_client.py` lines
59-164).  Every path returns a triple: the `except` handlers map
`NotFound` and `APIError` to exit code `-1` and any other exception to
`-2`, each with a message; the write step returns early with its own
exit code when it fails; the chmod step (bash fallback only) returns
early likewise, except that a `None` chmod stderr makes the message
f-string raise `AttributeError`, which the generic handler turns into
`-2`.  The `finally` cleanup runs on every path and swallows its own
errors, so `cleanupFails` influences nothing. -/
def exec_code_in_container (container_id : Nat) (base_image : String) (env : ExecEnv) :
    ExecResult :=
  let interpreter := interpreterFor base_image
  match env.tryOutcome with
  | TryOutcome.notFound =>
    { out := none
      err := some ("Container " ++ toString container_id ++ " not found.")
      exit := some (-1), cleanupAttempted := true }
  | TryOutcome.apiError =>
    { out := none
      err := some ("Docker API error executing command in " ++ toString container_id ++ ": " ++ env.excText)
      exit := some (-1), cleanupAttempted := true }
  | TryOutcome.otherError =>
    { out := none
      err := some ("Unexpected error executing command in " ++ toString container_id ++ ": " ++ env.excText)
      exit := some (-2), cleanupAttempted := true }
  | TryOutcome.normal =>
    if exitNonzero env.writeExit then
      let write_error := if optStrTruthy env.writeErr then env.writeErr.getD "" else "Unknown write error."
      { out := none
        err := some ("Failed to write script to container: " ++ write_error)
        exit := env.writeExit, cleanupAttempted := true }
    else if interpreter = "bash" && exitNonzero env.chmodExit then
      match env.chmodErr with
      | some msg =>
        { out := none
          err := some ("Failed to make script executable: " ++ msg)
          exit := env.chmodExit, cleanupAttempted := true }
      | none =>
        { out := none
          err := some ("Unexpected error executing command in " ++ toString container_id ++ ": " ++ env.excText)
          exit := some (-2), cleanupAttempted := true }
    else
      { out := if optStrTruthy env.execOut then env.execOut else none
        err := if optStrTruthy env.execErr then env.execErr else none
        exit := env.execExit, cleanupAttempted := true }

/-- The single-quote character, kept symbolic to build shell strings. -/
def squoteChar : Char := Char.ofNat 39

/-- The double-quote character. -/
def dquoteChar : Char := Char.ofNat 34

/-- The backslash character. -/
def backslashChar : Char := Char.ofNat 92

/-- The backtick character. -/
def backtickChar : Char := Char.ofNat 96

/-- The single-quote character as a string. -/
def squote : String := String.singleton squoteChar

/-- The double-quote character as a string. -/
def dquote : String := String.singleton dquoteChar

/-- The backslash character as a string. -/
def backslash : String := String.singleton backslashChar

/-- Replacement of every single-quote character by the four characters
quote-backslash-quote-quote; since the pattern is one character long,
Python `str.replace` is exactly this per-character substitution. -/
def escapeSQList : List Char → List Char
  | [] => []
  | c :: rest =>
    if c = squoteChar then
      squoteChar :: backslashChar :: squoteChar :: squoteChar :: escapeSQList rest
    else c :: escapeSQList rest

/-- Line 93 of `docker_client.py`:
`code_string.replace(squote, squote backslash squote squote)`. -/
def escaped_code_string (code : String) : String := String.mk (escapeSQList code.data)

/-- Line 84: `os.path.join("/share_area", temp_filename + file_extension)`. -/
def script_path_in_container (temp_filename ext : String) : String :=
  "/share_area/" ++ temp_filename ++ ext

/-- Line 94: the write command, the escaped code inside single quotes as
the `printf` argument, redirected to the script path. -/
def write_command (code path : String) : String :=
  "printf " ++ squote ++ "%s" ++ squote ++ " " ++ squote ++ escaped_code_string code
    ++ squote ++ " > " ++ path

/-- Line 98: the string handed to `exec_run`, the write command wrapped
in double quotes after `bash -c`. -/
def exec_run_cmd_for_write (code path : String) : String :=
  "bash -c " ++ dquote ++ write_command code path ++ dquote

/-- Lexer modes shared by the two shell-ish tokenizers below: between
tokens, inside an unquoted token, inside single quotes, inside double
quotes. -/
inductive LexMode where
  | ready
  | word
  | insq
  | indq
deriving DecidableEq, Repr

/-- POSIX `shlex.split` as docker-py applies it to a string `cmd` before
the exec API call (`docker.utils.split_command`): whitespace-separated
tokens; outside quotes a backslash escapes any next character; single
quotes are literal runs; inside double quotes a backslash escapes only
the double quote and the backslash itself and is otherwise kept
together with the following character; unbalanced quotes or a trailing
escape fail. -/
def shlexRun : List Char → LexMode → String → List String → Option (List String)
  | [], LexMode.ready, _, acc => some acc
  | [], LexMode.word, tok, acc => some (acc ++ [tok])
  | [], LexMode.insq, _, _ => none
  | [], LexMode.indq, _, _ => none
  | c :: rest, LexMode.ready, _, acc =>
    if c.isWhitespace then shlexRun rest LexMode.ready "" acc
    else if c = backslashChar then
      match rest with
      | [] => none
      | d :: rest2 => shlexRun rest2 LexMode.word (String.singleton d) acc
    else if c = squoteChar then shlexRun rest LexMode.insq "" acc
    else if c = dquoteChar then shlexRun rest LexMode.indq "" acc
    else shlexRun rest LexMode.word (String.singleton c) acc
  | c :: rest, LexMode.word, tok, acc =>
    if c.isWhitespace then shlexRun rest LexMode.ready "" (acc ++ [tok])
    else if c = backslashChar then
      match rest with
      | [] => none
      | d :: rest2 => shlexRun rest2 LexMode.word (tok.push d) acc
    else if c = squoteChar then shlexRun rest LexMode.insq tok acc
    else if c = dquoteChar then shlexRun rest LexMode.indq tok acc
    else shlexRun rest LexMode.word (tok.push c) acc
  | c :: rest, LexMode.insq, tok, acc =>
    if c = squoteChar then shlexRun rest LexMode.word tok acc
    else shlexRun rest LexMode.insq (tok.push c) acc
  | c :: rest, LexMode.indq, tok, acc =>
    if c = dquoteChar then shlexRun rest LexMode.word tok acc
    else if c = backslashChar then
      match rest with
      | [] => none
      | d :: rest2 =>
        if d = dquoteChar || d = backslashChar then shlexRun rest2 LexMode.indq (tok.push d) acc
        else shlexRun rest2 LexMode.indq ((tok.push c).push d) acc
    else shlexRun rest LexMode.indq (tok.push c) acc

/-- `shlex.split` on a whole string. -/
def shlexSplit (s : String) : Option (List String) :=
  shlexRun s.data LexMode.ready "" []

/-- Word tokenizer for the script that `bash -c` receives, covering the
POSIX quoting constructs the generated write command can contain:
whitespace separation, single quotes, double quotes with backslash
escapes of dollar, backtick, double quote and backslash, backslash
escapes outside quotes, and the unquoted redirection operator emitted
as its own `>` token.  Anything whose meaning involves an expansion or
an unmodelled operator (unquoted or double-quoted dollar or backtick,
the other operator and glob metacharacters) makes the tokenizer return
`none` rather than guess. -/
def bashLex : List Char → LexMode → String → List String → Option (List String)
  | [], LexMode.ready, _, acc => some acc
  | [], LexMode.word, tok, acc => some (acc ++ [tok])
  | [], LexMode.insq, _, _ => none
  | [], LexMode.indq, _, _ => none
  | c :: rest, LexMode.ready, _, acc =>
    if c.isWhitespace then bashLex rest LexMode.ready "" acc
    else if c = '>' then bashLex rest LexMode.ready "" (acc ++ [">"])
    else if c = '$' || c = backtickChar || c = '|' || c = '&' || c = ';' ||
        c = '(' || c = ')' || c = '<' || c = '*' || c = '?' || c = '[' then none
    else if c = backslashChar then
      match rest with
      | [] => none
      | d :: rest2 => bashLex rest2 LexMode.word (String.singleton d) acc
    else if c = squoteChar then bashLex rest LexMode.insq "" acc
    else if c = dquoteChar then bashLex rest LexMode.indq "" acc
    else bashLex rest LexMode.word (String.singleton c) acc
  | c :: rest, LexMode.word, tok, acc =>
    if c.isWhitespace then bashLex rest LexMode.ready "" (acc ++ [tok])
    else if c = '>' then bashLex rest LexMode.ready "" (acc ++ [tok, ">"])
    else if c = '$' || c = backtickChar || c = '|' || c = '&' || c = ';' ||
        c = '(' || c = ')' || c = '<' || c = '*' || c = '?' || c = '[' then none
    else if c = backslashChar then
      match rest with
      | [] => none
      | d :: rest2 => bashLex rest2 LexMode.word (tok.push d) acc
    else if c = squoteChar then bashLex rest LexMode.insq tok acc
    else if c = dquoteChar then bashLex rest LexMode.indq tok acc
    else bashLex rest LexMode.word (tok.push c) acc
  | c :: rest, LexMode.insq, tok, acc =>
    if c = squoteChar then bashLex rest LexMode.word tok acc
    else bashLex rest LexMode.insq (tok.push c) acc
  | c :: rest, LexMode.indq, tok, acc =>
    if c = dquoteChar then bashLex rest LexMode.word tok acc
    else if c = '$' || c = backtickChar then none
    else if c = backslashChar then
      match rest with
      | [] => none
      | d :: rest2 =>
        if d = dquoteChar || d = backslashChar || d = '$' || d = backtickChar then
          bashLex rest2 LexMode.indq (tok.push d) acc
        else bashLex rest2 LexMode.indq ((tok.push c).push d) acc
    else bashLex rest LexMode.indq (tok.push c) acc

/-- Semantics of the only command shape the write step generates:
`printf %s ARG > PATH` prints `ARG` verbatim and redirects it into
`PATH`, so `ARG` becomes the file content; any other shape is not
modelled. -/
def printfWriteSemantics (words : List String) (path : String) : Option String :=
  match words with
  | [p, f, arg, gt, tgt] =>
    if p = "printf" && f = "%s" && gt = ">" && tgt = path then some arg else none
  | _ => none

/-- Evaluate the script a `bash -c` invocation received, as far as the
write-command shape is concerned, producing the bytes that end up in
the script file. -/
def bash_dash_c_write (script path : String) : Option String :=
  (bashLex script.data LexMode.ready "" []).bind (fun ws => printfWriteSemantics ws path)

/-- End-to-end transfer pipeline of the write step in
`exec_code_in_container` (lines 90-106): build the `bash -c "printf
..."` string from the submitted code, split it the way docker-py splits
a string command (`shlex.split`), and evaluate the resulting `bash -c`
script; the result is the content of the temp file that the interpreter
will then execute, or `none` when the pipeline leaves the modelled
fragment. -/
def file_content_written (code temp_filename base_image : String) : Option String :=
  let path := script_path_in_container temp_filename (extensionFor base_image)
  match shlexSplit (exec_run_cmd_for_write code path) with
  | some [b, o, script] =>
    if b = "bash" && o = "-c" then bash_dash_c_write script path else none
  | _ => none

/-- All record ids in the store are below the fresh-id counter. -/
def dbIdsBound (w : World) : Prop := ∀ x ∈ w.db, x.id < w.nextRid

/-- All container ids known to the daemon are below the fresh-id
counter; Docker never reissues an id. -/
def dockerWf (d : DockerState) : Prop := ∀ c ∈ d.containers, c.cid < d.nextCid

theorem updFirst_fst_some {p : Sandbox → Bool} {f : Sandbox → Sandbox} {db : List Sandbox}
    {u : Sandbox} (h : (updFirst p f db).1 = some u) :
    ∃ x, x ∈ db ∧ p x = true ∧ u = f x := by
  induction db with
  | nil => simp [updFirst] at h
  | cons r rs ih =>
    by_cases hp : p r
    · simp only [updFirst, hp, if_pos] at h
      exact ⟨r, by simp, hp, (Option.some_injective _ h).symm⟩
    · simp only [updFirst, hp, if_neg, Bool.false_eq_true, not_false_iff] at h
      obtain ⟨x, hx, hpx, hu⟩ := ih h
      exact ⟨x, by simp [hx], hpx, hu⟩

theorem updFirst_isSome_of_mem {p : Sandbox → Bool} {f : Sandbox → Sandbox} {db : List Sandbox}
    {x : Sandbox} (hx : x ∈ db) (hp : p x = true) :
    ∃ u, (updFirst p f db).1 = some u := by
  induction db with
  | nil => simp at hx
  | cons r rs ih =>
    by_cases hpr : p r
    · exact ⟨f r, by simp [updFirst, hpr]⟩
    · rcases List.mem_cons.mp hx with h | h
      · subst h; exact absurd hp (by simp [hpr])
      · obtain ⟨u, hu⟩ := ih h
        exact ⟨u, by simp [updFirst, hpr, hu]⟩

theorem find?_cid_eq_none_of_bound {l : List DContainer} {n : Nat}
    (h : ∀ c ∈ l, c.cid < n) :
    l.find? (fun c => decide (c.cid = n)) = none := by
  rw [List.find?_eq_none]
  intro c hc
  simp [Nat.ne_of_lt (h c hc)]

theorem get_status_start_fresh {d : DockerState} {name : String} (h : dockerWf d) :
    get_container_status (start_container d name).2 d.nextCid = some ContainerState.running := by
  unfold get_container_status start_container
  simp only [List.find?_append, find?_cid_eq_none_of_bound h, Option.none_orElse]
  simp [List.find?]

theorem get_status_set_self (d : DockerState) (cid : Nat) (st : ContainerState) :
    get_container_status (set_container_state d cid st) cid =
      (get_container_status d cid).map (fun _ => st) := by
  unfold get_container_status set_container_state
  induction d.containers with
  | nil => rfl
  | cons c cs ih =>
    by_cases hc : c.cid = cid
    · simp [setFirstContainerState, hc, List.find?]
    · simp only [setFirstContainerState, hc, if_neg, not_false_iff]
      simp only [List.find?, show (decide (c.cid = cid)) = false by simp [hc]]
      exact ih

/-- Sortedness by descending `last_updated_at`. -/
def sortedDescKeys (l : List Sandbox) : Prop :=
  List.Pairwise (fun a b => b.last_updated_at ≤ a.last_updated_at) l

theorem mem_insertNewest {a r : Sandbox} {l : List Sandbox} :
    a ∈ insertNewest r l ↔ a = r ∨ a ∈ l := by
  induction l with
  | nil => simp [insertNewest]
  | cons x xs ih =>
    by_cases hk : r.last_updated_at ≤ x.last_updated_at
    · simp only [insertNewest, hk, if_pos, List.mem_cons, ih]
      tauto
    · simp only [insertNewest, hk, if_neg, not_false_iff, List.mem_cons]

theorem insertNewest_sorted {r : Sandbox} {l : List Sandbox} (h : sortedDescKeys l) :
    sortedDescKeys (insertNewest r l) := by
  induction l with
  | nil => simp [insertNewest, sortedDescKeys]
  | cons x xs ih =>
    rcases List.pairwise_cons.mp h with ⟨hx, hxs⟩
    by_cases hk : r.last_updated_at ≤ x.last_updated_at
    · simp only [insertNewest, hk, if_pos]
      refine List.pairwise_cons.mpr ⟨?_, ih hxs⟩
      intro b hb
      rcases mem_insertNewest.mp hb with hb | hb
      · subst hb; exact hk
      · exact hx b hb
    · simp only [insertNewest, hk, if_neg, not_false_iff]
      refine List.pairwise_cons.mpr ⟨?_, h⟩
      intro b hb
      rcases List.mem_cons.mp hb with hb | hb
      · subst hb; exact Nat.le_of_lt (Nat.lt_of_not_le hk)
      · exact Nat.le_trans (hx b hb) (Nat.le_of_lt (Nat.lt_of_not_le hk))

theorem foldl_insert_sorted (l : List Sandbox) :
    ∀ acc, sortedDescKeys acc →
      sortedDescKeys (l.foldl (fun acc r => insertNewest r acc) acc) := by
  induction l with
  | nil => intro acc h; exact h
  | cons x xs ih =>
    intro acc h
    exact ih (insertNewest x acc) (insertNewest_sorted h)

theorem foldl_insert_mem (l : List Sandbox) :
    ∀ acc a, (a ∈ l.foldl (fun acc r => insertNewest r acc) acc ↔ a ∈ acc ∨ a ∈ l) := by
  induction l with
  | nil => intro acc a; simp
  | cons x xs ih =>
    intro acc a
    rw [List.foldl_cons, ih (insertNewest x acc) a, mem_insertNewest]
    simp [List.mem_cons]
    tauto

theorem sortNewestFirst_sorted (l : List Sandbox) : sortedDescKeys (sortNewestFirst l) :=
  foldl_insert_sorted l [] (by simp [sortedDescKeys])

theorem sortNewestFirst_mem {l : List Sandbox} {a : Sandbox} :
    a ∈ sortNewestFirst l ↔ a ∈ l := by
  unfold sortNewestFirst
  rw [foldl_insert_mem l [] a]
  simp

theorem sorted_head_max {l : List Sandbox} {h : Sandbox} (hs : sortedDescKeys l)
    (hh : l.head? = some h) : ∀ a ∈ l, a.last_updated_at ≤ h.last_updated_at := by
  cases l with
  | nil => simp at hh
  | cons x xs =>
    have hx : x = h := by simpa using hh
    subst hx
    rcases List.pairwise_cons.mp hs with ⟨hxs, _⟩
    intro a ha
    rcases List.mem_cons.mp ha with ha | ha
    · subst ha; exact Nat.le_refl _
    · exact hxs a ha

/-- C7: in the lookup step of `provision_and_execute_sandbox_session`,
an anchor returned for a caller id and image is one of the stored
records, carries exactly that caller id and image (so records of other
callers or images are never selected), and its `last_updated_at` is
maximal among all stored records matching the caller id and image. -/
theorem C7_lookup_selects_newest (db : List Sandbox) (agent image : String) (a : Sandbox)
    (h : lookupAnchor db agent image = some a) :
    a ∈ db ∧ a.llm_agent_id = agent ∧ a.base_image = image ∧
      ∀ r ∈ db, r.llm_agent_id = agent → r.base_image = image →
        r.last_updated_at ≤ a.last_updated_at := by
  unfold lookupAnchor at h
  have hmem : a ∈ sortNewestFirst (db.filter fun sb =>
      decide (sb.llm_agent_id = agent) && decide (sb.base_image = image)) :=
    List.mem_of_mem_head? (by rw [h]; rfl)
  obtain ⟨hdb, hpred⟩ := List.mem_filter.mp (sortNewestFirst_mem.mp hmem)
  rw [Bool.and_eq_true, decide_eq_true_eq, decide_eq_true_eq] at hpred
  refine ⟨hdb, hpred.1, hpred.2, ?_⟩
  intro r hr h1 h2
  have hrf : r ∈ sortNewestFirst (db.filter fun sb =>
      decide (sb.llm_agent_id = agent) && decide (sb.base_image = image)) :=
    sortNewestFirst_mem.mpr (List.mem_filter.mpr ⟨hr, by simp [h1, h2]⟩)
  exact sorted_head_max (sortNewestFirst_sorted _) h r hrf

/-- Row builder for concrete witness stores. -/
def mkRow (id : Nat) (agent image : String) (last : Nat) : Sandbox :=
  { id := id
    container_id := none
    status := SandboxStatus.pending
    created_at := 0
    last_updated_at := last
    llm_agent_id := agent
    code_to_execute := "c"
    execution_result := none
    error_message := none
    resource_limits_applied := none
    is_active := true
    base_image := image
    exit_code := none }

/-- Concrete store for the C7 witness: two records of caller `a` on
image `i` with different freshness, one record of another caller. -/
def C7db : List Sandbox := [mkRow 0 "a" "i" 1, mkRow 1 "a" "i" 5, mkRow 2 "b" "i" 9]

/-- Witness for C7: on `C7db` the lookup picks the record with
`last_updated_at = 5`, which belongs to caller `a`, and the older
matching record is not newer than it. -/
theorem C7_witness :
    mkRow 1 "a" "i" 5 ∈ C7db ∧ (mkRow 1 "a" "i" 5).llm_agent_id = "a" ∧
      (mkRow 1 "a" "i" 5).base_image = "i" ∧
      (mkRow 0 "a" "i" 1).last_updated_at ≤ (mkRow 1 "a" "i" 5).last_updated_at := by
  have h := C7_lookup_selects_newest C7db "a" "i" (mkRow 1 "a" "i" 5) (by decide)
  exact ⟨h.1, h.2.1, h.2.2.1, h.2.2.2 (mkRow 0 "a" "i" 1) (by decide) rfl rfl⟩

/-- C1: the repair sweep is a no-op on every state.  The sweep filters
`get_active_sandboxes()` for `status == FAILED`, but
`CRUD.get_active_sandboxes` only returns rows whose status is
`PENDING`, `RUNNING` or `REGENERATING`, so the selection is always
empty and no Failed record is ever corrected, deactivated or cleaned
up — the repair behaviour the claim describes never executes. -/
theorem C1_monitor_repair_sweep_never_fires (w : World) :
    monitor_and_regenerate_broken_sandboxes w = w := by
  unfold monitor_and_regenerate_broken_sandboxes
  have hb : (get_active_sandboxes w.db).filter
      (fun sb => decide (sb.status = SandboxStatus.failed)) = [] := by
    unfold get_active_sandboxes
    rw [List.filter_filter, List.filter_eq_nil_iff]
    intro a _
    cases h : a.status <;> simp [h]
  rw [hb]
  rfl

/-- C4: the transfer of the code into the temp file is not robust to
arbitrary bytes.  The write step escapes only single quotes and embeds
the result, single-quoted, inside a double-quoted `bash -c "..."`
string; running that pipeline (docker-py shlex split, then the shell)
on the code `say "hi"` writes the file content `say hi` — the double
quotes of the submitted code are consumed by the wrapper instead of
reaching the file, so the executed file does not equal the submitted
code. -/
theorem C4_transfer_mangles_double_quotes :
    file_content_written ("say " ++ dquote ++ "hi" ++ dquote) "t" "python:3.11" = some "say hi"
      ∧ ("say " ++ dquote ++ "hi" ++ dquote) ≠ "say hi" := by
  exact ⟨by rfl, by decide⟩

/-- Counterexample to C5: on a transport/API error `pull_image` returns
`False` (the `except APIError` handler returns rather than re-raises),
instead of raising as the claim states. -/
theorem C5_counterexample : pull_image PullOutcome.apiError = Except.ok false := rfl

/-- C5 (amended): `pull_image` returns `True` exactly on a successful
pull and `False` both when the image is not found and on a
transport/API error; it never raises to its caller. -/
theorem C5_pull_image_error_handling (o : PullOutcome) :
    pull_image o = Except.ok (decide (o = PullOutcome.pulled)) := by
  cases o <;> rfl

/-- The state for the C2 run: the anchor record of caller `a` points at
container 1, which the daemon reports as `exited` — the exact situation
in which the claim says a restart of container 1 is attempted and, when
it succeeds, the session is reused with container 1. -/
def C2world : World :=
  { db := [{ mkRow 0 "a" "img" 0 with container_id := some 1, status := SandboxStatus.running }]
    docker := { containers := [{ cid := 1, cname := "sandbox-a", cstate := ContainerState.exited }], nextCid := 2 }
    nextRid := 1
    now := 1 }

/-- Benign environment for the C2 run: pulling and starting succeed and
the executed code exits cleanly. -/
def C2env : SvcEnv :=
  { pullOk := true, startOk := true, execOut := some "x", execErr := none
    execExit := some 0, execKillsContainer := false }

/-- C2: the restart path can never succeed, because the service calls
`self._docker_client.start_existing_container(...)` and `DockerClient`
defines no such method, so the call raises `AttributeError` and the
`except` branch runs.  Evaluating the session flow on a caller whose
recorded container is merely `exited` shows the outcome: the returned
session is a new record (id 1) on a freshly provisioned container
(id 2), and the anchor record 0 has been deactivated — the same
container is never restarted and reused. -/
theorem C2_restart_attempt_always_fails :
    (provision_and_execute_sandbox_session C2world "a" "c" "img" "lim" C2env).toOption.map
        (fun p => (p.1.id, p.1.container_id, p.2.db.map (fun r => (r.id, r.is_active))))
      = some (1, some 2, [(0, false), (1, true)]) := by
  rfl

/-- The state for the C6 counterexample: the anchor record carries
`error_message = "old boom"` from an earlier failed execution, and its
container is running. -/
def C6world : World :=
  { db := [{ mkRow 0 "a" "img" 0 with
      container_id := some 1
      status := SandboxStatus.failed
      error_message := some "old boom" }]
    docker := { containers := [{ cid := 1, cname := "sandbox-a", cstate := ContainerState.running }], nextCid := 2 }
    nextRid := 1
    now := 1 }

/-- Environment for the C6 counterexample: the new execution succeeds
with stdout `ok`, exit code 0, and no stderr. -/
def C6env : SvcEnv :=
  { pullOk := true, startOk := true, execOut := some "ok", execErr := none
    execExit := some 0, execKillsContainer := false }

/-- Counterexample to C6: after a later execution that produced no
stderr, the returned record still carries the `errorMessage` of the
earlier failed execution (`old boom`), because
`CRUD.update_sandbox_status` skips empty fields; so `errorMessage` is
not set to the outcome of the latest execution. -/
theorem C6_counterexample :
    (provision_and_execute_sandbox_session C6world "a" "c" "img" "lim" C6env).toOption.map
        (fun p => (p.1.error_message, p.1.status, p.1.exit_code))
      = some (some "old boom", SandboxStatus.running, some 0) := by
  rfl

/-- C10: the error contract of `exec_code_in_container`.  The function
is total (it returns a triple on every environment — in the source
every path of the `try` body ends in a `return` and the `except`
handlers cover `Exception`); the cleanup in `finally` is reached on
every path and a failing cleanup does not alter the returned triple; an
unknown container or a Docker API error yields exit code `-1` with a
message, and any other unexpected error yields `-2` with a message. -/
theorem C10_exec_code_error_contract (container_id : Nat) (base_image : String) (env : ExecEnv) :
    (exec_code_in_container container_id base_image env).cleanupAttempted = true
    ∧ exec_code_in_container container_id base_image { env with cleanupFails := true }
        = exec_code_in_container container_id base_image { env with cleanupFails := false }
    ∧ exec_code_in_container container_id base_image { env with tryOutcome := TryOutcome.notFound }
        = { out := none
            err := some ("Container " ++ toString container_id ++ " not found.")
            exit := some (-1), cleanupAttempted := true }
    ∧ exec_code_in_container container_id base_image { env with tryOutcome := TryOutcome.apiError }
        = { out := none
            err := some ("Docker API error executing command in " ++ toString container_id
              ++ ": " ++ env.excText)
            exit := some (-1), cleanupAttempted := true }
    ∧ exec_code_in_container container_id base_image { env with tryOutcome := TryOutcome.otherError }
        = { out := none
            err := some ("Unexpected error executing command in " ++ toString container_id
              ++ ": " ++ env.excText)
            exit := some (-2), cleanupAttempted := true } := by
  refine ⟨?_, ?_, rfl, rfl, rfl⟩
  · cases env with
    | mk tryOutcome excText writeExit writeErr chmodExit chmodErr execExit execOut execErr cleanupFails =>
      cases tryOutcome
      · simp only [exec_code_in_container]
        split
        · rfl
        · split
          · split <;> rfl
          · rfl
      · rfl
      · rfl
      · rfl
  · cases env with
    | mk tryOutcome excText writeExit writeErr chmodExit chmodErr execExit execOut execErr cleanupFails =>
      rfl

theorem mem_removeFirstContainer {a : DContainer} {cid : Nat} {l : List DContainer}
    (h : a ∈ removeFirstContainer cid l) : a ∈ l := by
  induction l with
  | nil => simp [removeFirstContainer] at h
  | cons c cs ih =>
    by_cases hc : c.cid = cid
    · simp only [removeFirstContainer, hc, if_pos] at h
      exact List.mem_cons_of_mem c h
    · simp only [removeFirstContainer, hc, if_neg, not_false_iff, List.mem_cons] at h
      rcases h with h | h
      · exact h ▸ List.mem_cons_self c cs
      · exact List.mem_cons_of_mem c (ih h)

theorem dockerWf_stop_and_remove {d : DockerState} {cid : Nat} (h : dockerWf d) :
    dockerWf (stop_and_remove_container d cid) := by
  intro c hc
  exact h c (mem_removeFirstContainer hc)

theorem exitNonzero_eq_false_iff (o : Option Int) : exitNonzero o = false ↔ o = some 0 := by
  cases o with
  | none => simp [exitNonzero]
  | some z => simp [exitNonzero]

theorem finalRes_truthy (o : Option String) :
    optStrTruthy (some (if optStrTruthy o then o.getD "" else "No output.")) = true := by
  cases o with
  | none => simp [optStrTruthy]
  | some s =>
    by_cases h : s = "" <;> simp [optStrTruthy, h]

theorem updApply_id (now : Nat) (status : SandboxStatus) (c : Option Nat)
    (e er : Option String) (ex : Option Int) (r : Sandbox) :
    (updApply now status c e er ex r).id = r.id := rfl

theorem updFirst_then_first {p : Sandbox → Bool} {f g : Sandbox → Sandbox}
    {db : List Sandbox} {u : Sandbox}
    (hpres : ∀ x, p (f x) = p x)
    (h : (updFirst p f db).1 = some u) :
    (updFirst p g (updFirst p f db).2).1 = some (g u) := by
  induction db with
  | nil => simp [updFirst] at h
  | cons r rs ih =>
    by_cases hp : p r
    · simp only [updFirst, hp, if_pos] at h ⊢
      have hu : u = f r := (Option.some_injective _ h).symm
      simp [hpres r, hp, hu]
    · simp only [updFirst, hp, if_neg, not_false_iff, Bool.false_eq_true] at h ⊢
      simp [hp, ih h]

theorem find?_after_updFirst {p : Sandbox → Bool} {f : Sandbox → Sandbox}
    {db : List Sandbox} {u : Sandbox}
    (hpres : ∀ x, p (f x) = p x)
    (h : (updFirst p f db).1 = some u) :
    (updFirst p f db).2.find? p = some u := by
  induction db with
  | nil => simp [updFirst] at h
  | cons r rs ih =>
    by_cases hp : p r
    · simp only [updFirst, hp, if_pos] at h ⊢
      have hu : u = f r := (Option.some_injective _ h).symm
      simp [List.find?, hpres r, hp, hu]
    · simp only [updFirst, hp, if_neg, not_false_iff, Bool.false_eq_true] at h ⊢
      simp [List.find?, hp, ih h]

theorem find?_id_after_updFirst_ne {db : List Sandbox} {tid sid : Nat} {g : Sandbox → Sandbox}
    (hg : ∀ x, (g x).id = x.id) (hne : sid ≠ tid) :
    ((updFirst (fun x => decide (x.id = tid)) g db).2).find? (fun y => decide (y.id = sid))
      = db.find? (fun y => decide (y.id = sid)) := by
  induction db with
  | nil => simp [updFirst]
  | cons r rs ih =>
    by_cases ht : r.id = tid
    · simp [updFirst, List.find?, ht, hg r, Ne.symm hne]
    · by_cases hs : r.id = sid
      · simp [updFirst, List.find?, ht, hs, hne]
      · simp [updFirst, List.find?, ht, hs, ih]

theorem update_fst_fields {db : List Sandbox} {now sid : Nat} {status : SandboxStatus}
    {c : Option Nat} {e er : Option String} {ex : Option Int} {u : Sandbox}
    (h : (update_sandbox_status db now sid status c e er ex).1 = some u) :
    u.status = status ∧ u.id = sid
      ∧ (c.isSome = true → u.container_id = c)
      ∧ (optStrTruthy e = true → u.execution_result = e)
      ∧ (optStrTruthy er = true → u.error_message = er)
      ∧ (ex.isSome = true → u.exit_code = ex) := by
  simp only [update_sandbox_status] at h
  cases hf : (updFirst (fun r => decide (r.id = sid)) (updApply now status c e er ex) db).1 with
  | none => rw [hf] at h; simp at h
  | some v =>
    rw [hf] at h
    simp only [Option.some.injEq] at h
    subst h
    obtain ⟨x, _, hpx, hv⟩ := updFirst_fst_some hf
    have hxid : x.id = sid := of_decide_eq_true hpx
    subst hv
    refine ⟨rfl, hxid, ?_, ?_, ?_, ?_⟩
    · intro hc; simp [updApply, hc]
    · intro he; simp [updApply, he]
    · intro her; simp [updApply, her]
    · intro hex; simp [updApply, hex]

theorem exec_and_finalize_spec (w : World) (entry : Sandbox) (cid : Nat) (env : SvcEnv) :
    (exec_and_finalize w entry cid env).1.status =
        db_status_after_exec_of (get_container_status (post_exec_docker w cid env) cid) env
      ∧ (exec_and_finalize w entry cid env).1.execution_result = final_execution_result_of env
      ∧ (env.execExit.isSome = true → (exec_and_finalize w entry cid env).1.exit_code = env.execExit)
      ∧ (optStrTruthy env.execErr = true →
          (exec_and_finalize w entry cid env).1.error_message = env.execErr) := by
  cases hu : (update_sandbox_status w.db w.now entry.id
      (db_status_after_exec_of (get_container_status (post_exec_docker w cid env) cid) env) none
      (final_execution_result_of env) (final_error_message_of env) env.execExit).1 with
  | none =>
    have hres : (exec_and_finalize w entry cid env).1 =
        { entry with
            status := db_status_after_exec_of
              (get_container_status (post_exec_docker w cid env) cid) env
            execution_result := final_execution_result_of env
            error_message := final_error_message_of env
            exit_code := env.execExit } := by
      simp [exec_and_finalize, hu]
    rw [hres]
    refine ⟨rfl, rfl, fun _ => rfl, fun h => ?_⟩
    simp [final_error_message_of, h]
  | some u =>
    have hres : (exec_and_finalize w entry cid env).1 = u := by
      simp [exec_and_finalize, hu]
    rw [hres]
    have hf := update_fst_fields hu
    refine ⟨hf.1, ?_, hf.2.2.2.2.2, fun h => ?_⟩
    · exact hf.2.2.2.1 (finalRes_truthy env.execOut)
    · have htr : optStrTruthy (final_error_message_of env) = true := by
        simp [final_error_message_of, h]
      have := hf.2.2.2.2.1 htr
      rw [this]
      simp [final_error_message_of, h]

theorem post_probe_running {w : World} {cid : Nat} (env : SvcEnv)
    (h : get_container_status w.docker cid = some ContainerState.running) :
    get_container_status (post_exec_docker w cid env) cid =
      if env.execKillsContainer then some ContainerState.exited
      else some ContainerState.running := by
  by_cases hk : env.execKillsContainer <;>
    simp [post_exec_docker, hk, get_status_set_self, h]

theorem db_status_running_iff (post : Option ContainerState) (env : SvcEnv) :
    db_status_after_exec_of post env = SandboxStatus.running ↔
      (post = some ContainerState.running ∧ env.execExit = some 0 ∧
        optStrTruthy env.execErr = false) := by
  unfold db_status_after_exec_of
  by_cases h1 : post = some ContainerState.running
  · by_cases h3 : optStrTruthy env.execErr = true
    · cases hz : exitNonzero env.execExit <;> simp [h1, h3, hz]
    · by_cases h2 : env.execExit = some 0
      · simp [h1, h2, h3, exitNonzero]
      · have hz : exitNonzero env.execExit = true := by
          cases hq : exitNonzero env.execExit
          · exact absurd ((exitNonzero_eq_false_iff _).mp hq) h2
          · rfl
        simp [h1, h2, hz]
  · simp [h1]

theorem lookupAnchor_mem {db : List Sandbox} {agent image : String} {a : Sandbox}
    (h : lookupAnchor db agent image = some a) : a ∈ db := by
  unfold lookupAnchor at h
  have hmem := List.mem_of_mem_head? (show a ∈ _ from by rw [h]; rfl)
  exact (List.mem_filter.mp (sortNewestFirst_mem.mp hmem)).1

theorem update_fst_unwrap {db : List Sandbox} {now sid : Nat} {st : SandboxStatus}
    {c : Option Nat} {e er : Option String} {ex : Option Int} {u : Sandbox}
    (h : (update_sandbox_status db now sid st c e er ex).1 = some u) :
    (updFirst (fun r => decide (r.id = sid)) (updApply now st c e er ex) db).1 = some u := by
  simp only [update_sandbox_status] at h
  cases hf : (updFirst (fun r => decide (r.id = sid)) (updApply now st c e er ex) db).1 with
  | none => rw [hf] at h; simp at h
  | some v =>
    rw [hf] at h
    simp only at h
    exact h

theorem update_db_eq (db : List Sandbox) (now sid : Nat) (st : SandboxStatus)
    (c : Option Nat) (e er : Option String) (ex : Option Int) :
    (update_sandbox_status db now sid st c e er ex).2.1 =
      (updFirst (fun r => decide (r.id = sid)) (updApply now st c e er ex) db).2 := by
  simp only [update_sandbox_status]
  cases hf : (updFirst (fun r => decide (r.id = sid)) (updApply now st c e er ex) db).1 <;>
    simp [hf]

theorem update_fst_isSome {db : List Sandbox} {now sid : Nat} {st : SandboxStatus}
    {c : Option Nat} {e er : Option String} {ex : Option Int}
    (h : ∃ x ∈ db, x.id = sid) :
    ∃ u, (update_sandbox_status db now sid st c e er ex).1 = some u := by
  obtain ⟨x, hx, hid⟩ := h
  obtain ⟨u, hu⟩ := updFirst_isSome_of_mem (p := fun r => decide (r.id = sid))
    (f := updApply now st c e er ex) hx (by simp [hid])
  exact ⟨u, by simp [update_sandbox_status, hu]⟩

theorem exec_finalize_result_of_found (wA wB : World) (cid : Nat) (env : SvcEnv)
    {sid : Nat} {st : SandboxStatus}
    {c : Option Nat} {e er : Option String} {ex : Option Int} {u : Sandbox}
    (hu : (update_sandbox_status wA.db wA.now sid st c e er ex).1 = some u)
    (hdb : wB.db = (update_sandbox_status wA.db wA.now sid st c e er ex).2.1) :
    (exec_and_finalize wB u cid env).1 =
      updApply wB.now
        (db_status_after_exec_of (get_container_status (post_exec_docker wB cid env) cid) env)
        none (final_execution_result_of env) (final_error_message_of env) env.execExit u := by
  have hid : u.id = sid := (update_fst_fields hu).2.1
  have hu' := update_fst_unwrap hu
  have hdb' : wB.db =
      (updFirst (fun r => decide (r.id = sid)) (updApply wA.now st c e er ex) wA.db).2 := by
    rw [hdb, update_db_eq]
  have key := updFirst_then_first
    (g := updApply wB.now
      (db_status_after_exec_of (get_container_status (post_exec_docker wB cid env) cid) env)
      none (final_execution_result_of env) (final_error_message_of env) env.execExit)
    (fun x => by simp [updApply]) hu'
  simp only [exec_and_finalize, update_sandbox_status, hid, hdb']
  rw [key]

theorem find?_id_append_singleton {l : List Sandbox} {x : Sandbox} {sid : Nat}
    (h : ¬ x.id = sid) :
    (l ++ [x]).find? (fun y => decide (y.id = sid)) = l.find? (fun y => decide (y.id = sid)) := by
  induction l with
  | nil => simp [List.find?, h]
  | cons a as ih => by_cases ha : a.id = sid <;> simp [List.find?, ha, ih]

theorem exec_finalize_db (wB : World) (u : Sandbox) (cid : Nat) (env : SvcEnv) :
    (exec_and_finalize wB u cid env).2.db =
      (update_sandbox_status wB.db wB.now u.id
        (db_status_after_exec_of (get_container_status (post_exec_docker wB cid env) cid) env)
        none (final_execution_result_of env) (final_error_message_of env) env.execExit).2.1 := by
  simp only [exec_and_finalize]
  cases h : (update_sandbox_status wB.db wB.now u.id
      (db_status_after_exec_of (get_container_status (post_exec_docker wB cid env) cid) env)
      none (final_execution_result_of env) (final_error_message_of env) env.execExit).1 <;>
    simp [h]

theorem find?_id_after_update_ne {db : List Sandbox} {now tid sid : Nat}
    {st : SandboxStatus} {c : Option Nat} {e er : Option String} {ex : Option Int}
    (hne : sid ≠ tid) :
    ((update_sandbox_status db now tid st c e er ex).2.1).find? (fun y => decide (y.id = sid))
      = db.find? (fun y => decide (y.id = sid)) := by
  rw [update_db_eq]
  exact find?_id_after_updFirst_ne (g := updApply now st c e er ex) (fun x => rfl) hne

theorem provisionCore_spec {w1 : World} {agent code image cname lim : String} {env : SvcEnv}
    {r : Sandbox} {wfin : World}
    (hwf : dockerWf w1.docker)
    (hok : provisionCore w1 agent code image cname lim env = Except.ok (r, wfin)) :
    (∃ wmid entry, (r, wfin) = exec_and_finalize wmid entry w1.docker.nextCid env
        ∧ get_container_status wmid.docker w1.docker.nextCid = some ContainerState.running)
    ∧ r.id = w1.nextRid
    ∧ r.container_id = some w1.docker.nextCid
    ∧ ∀ sid, sid ≠ w1.nextRid →
        wfin.db.find? (fun y => decide (y.id = sid)) = w1.db.find? (fun y => decide (y.id = sid)) := by
  cases hpull : env.pullOk with
  | false =>
    simp only [provisionCore, hpull] at hok
    simp at hok
  | true =>
    cases hstart : env.startOk with
    | false =>
      simp only [provisionCore, hpull, hstart] at hok
      simp at hok
    | true =>
      simp only [provisionCore, hpull, hstart, if_true] at hok
      set cw := createdWorld w1 agent code image lim with hcw
      set sw := startedWorld cw.2 cname with hsw
      obtain ⟨u, hu⟩ : ∃ u, (update_sandbox_status sw.2.db sw.2.now cw.1.id
          SandboxStatus.running (some sw.1.cid) (some "Sandbox session started.")
          none (some 0)).1 = some u := by
        apply update_fst_isSome
        refine ⟨cw.1, ?_, rfl⟩
        have hdb1 : sw.2.db = w1.db ++ [cw.1] := rfl
        rw [hdb1]
        simp
      set upd := update_sandbox_status sw.2.db sw.2.now cw.1.id SandboxStatus.running
        (some sw.1.cid) (some "Sandbox session started.") none (some 0) with hupd
      rw [hu] at hok
      set W4 : World := { db := upd.2.1, docker := sw.2.docker, nextRid := sw.2.nextRid, now := upd.2.2 } with hW4
      simp only [Except.ok.injEq] at hok
      have hufields := update_fst_fields hu
      have hres := exec_finalize_result_of_found sw.2 W4 sw.1.cid env hu (by rw [hW4])
      obtain ⟨hr, hw⟩ : (exec_and_finalize W4 u sw.1.cid env).1 = r ∧
          (exec_and_finalize W4 u sw.1.cid env).2 = wfin := by
        rw [hok]
        exact ⟨rfl, rfl⟩
      refine ⟨⟨W4, u, ?_, ?_⟩, ?_, ?_, ?_⟩
      · rw [← hr, ← hw]
        rfl
      · exact get_status_start_fresh hwf
      · rw [← hr, hres]
        have h1 : u.id = cw.1.id := hufields.2.1
        simp only [updApply]
        exact h1
      · rw [← hr, hres]
        have h2 : u.container_id = some sw.1.cid := hufields.2.2.1 rfl
        simp only [updApply, Option.isSome_none, Bool.false_eq_true, if_false]
        exact h2
      · intro sid hsid
        have hne1 : sid ≠ u.id := fun h => hsid (h.trans hufields.2.1)
        have hne2 : sid ≠ cw.1.id := fun h => hsid h
        have hne3 : ¬ cw.1.id = sid := fun h => hsid h.symm
        rw [← hw, exec_finalize_db, find?_id_after_update_ne hne1]
        have hW4db : W4.db = upd.2.1 := rfl
        rw [hW4db, hupd, find?_id_after_update_ne hne2]
        have hdb1 : sw.2.db = w1.db ++ [cw.1] := rfl
        rw [hdb1, find?_id_append_singleton hne3]

theorem resolveNameConflict_facts (w : World) (n : String) :
    (resolveNameConflict w n).db = w.db ∧ (resolveNameConflict w n).nextRid = w.nextRid
      ∧ (resolveNameConflict w n).docker.nextCid = w.docker.nextCid := by
  unfold resolveNameConflict
  cases h : find_container_by_name w.docker n <;> simp [stop_and_remove_container]

theorem dockerWf_resolveNameConflict {w : World} {n : String} (h : dockerWf w.docker) :
    dockerWf (resolveNameConflict w n).docker := by
  unfold resolveNameConflict
  cases hf : find_container_by_name w.docker n with
  | none => exact h
  | some c => exact dockerWf_stop_and_remove h

theorem provisionNew_spec {w0 : World} {agent code image cname lim : String} {env : SvcEnv}
    {r : Sandbox} {wfin : World}
    (hwf : dockerWf w0.docker)
    (hok : provisionNew w0 agent code image cname lim env = Except.ok (r, wfin)) :
    (∃ wmid entry, (r, wfin) = exec_and_finalize wmid entry w0.docker.nextCid env
        ∧ get_container_status wmid.docker w0.docker.nextCid = some ContainerState.running)
    ∧ r.id = w0.nextRid
    ∧ r.container_id = some w0.docker.nextCid
    ∧ ∀ sid, sid ≠ w0.nextRid →
        wfin.db.find? (fun y => decide (y.id = sid)) = w0.db.find? (fun y => decide (y.id = sid)) := by
  unfold provisionNew at hok
  have hfacts := resolveNameConflict_facts w0 cname
  have hspec := provisionCore_spec (dockerWf_resolveNameConflict hwf) hok
  rw [hfacts.1, hfacts.2.1, hfacts.2.2] at hspec
  exact hspec

set_option maxHeartbeats 1000000 in
theorem provision_ok_decomp {w : World} {agent code image lim : String} {env : SvcEnv}
    {r : Sandbox} {wfin : World}
    (hwf : dockerWf w.docker)
    (hok : provision_and_execute_sandbox_session w agent code image lim env
      = Except.ok (r, wfin)) :
    ∃ wmid entry cid, (r, wfin) = exec_and_finalize wmid entry cid env
      ∧ get_container_status wmid.docker cid = some ContainerState.running := by
  unfold provision_and_execute_sandbox_session at hok
  cases ha : lookupAnchor w.db agent image with
  | none =>
    rw [ha] at hok
    simp only [] at hok
    obtain ⟨⟨wmid, entry, h1, h2⟩, _, _, _⟩ := provisionNew_spec hwf hok
    exact ⟨wmid, entry, _, h1, h2⟩
  | some a =>
    rw [ha] at hok
    simp only [] at hok
    cases hcid : a.container_id with
    | none =>
      rw [hcid] at hok
      simp only [] at hok
      obtain ⟨⟨wmid, entry, h1, h2⟩, _, _, _⟩ := provisionNew_spec hwf hok
      exact ⟨wmid, entry, _, h1, h2⟩
    | some cid =>
      rw [hcid] at hok
      simp only [] at hok
      cases hprobe : get_container_status w.docker cid with
      | none =>
        rw [hprobe] at hok
        simp only [Option.getD_none, Option.isSome_none, restartableState,
          Bool.and_self, Bool.false_eq_true, if_false] at hok
        obtain ⟨⟨wmid, entry, h1, h2⟩, _, _, _⟩ :=
          provisionNew_spec (dockerWf_stop_and_remove hwf) hok
        exact ⟨wmid, entry, _, h1, h2⟩
      | some s =>
        rw [hprobe] at hok
        cases s
        case running =>
          simp only [Except.ok.injEq] at hok
          exact ⟨_, _, cid, hok.symm, hprobe⟩
        case otherState =>
          simp only [Option.getD_some, Option.isSome_some, restartableState,
            Bool.false_and, Bool.false_eq_true, if_false] at hok
          obtain ⟨⟨wmid, entry, h1, h2⟩, _, _, _⟩ :=
            provisionNew_spec (dockerWf_stop_and_remove hwf) hok
          exact ⟨wmid, entry, _, h1, h2⟩
        all_goals
          simp only [Option.getD_some, Option.isSome_some, restartableState,
            Bool.and_self, if_true] at hok
        all_goals
          obtain ⟨⟨wmid, entry, h1, h2⟩, _, _, _⟩ := provisionNew_spec (by exact hwf) hok
        all_goals exact ⟨wmid, entry, _, h1, h2⟩

/-- C3: after executing code, the session flow re-probes the container
and records the status by the decision table: `Running` exactly when
the container still runs (the code did not kill it), the exit code is
0, and stderr is empty; in every other combination `Failed`.  And when
the code exits with code 7, the recorded `exit_code` is `some 7` and
the recorded status is `Failed`. -/
theorem C3_finalize_decision_table (w : World) (agent code image lim : String) (env : SvcEnv)
    (r : Sandbox) (wfin : World) (hwf : dockerWf w.docker)
    (hok : provision_and_execute_sandbox_session w agent code image lim env
      = Except.ok (r, wfin)) :
    (r.status = SandboxStatus.running ↔
      (env.execKillsContainer = false ∧ env.execExit = some 0 ∧
        optStrTruthy env.execErr = false))
    ∧ (env.execExit = some 7 →
        r.status = SandboxStatus.failed ∧ r.exit_code = some 7) := by
  obtain ⟨wmid, entry, cid, heq, hrun⟩ := provision_ok_decomp hwf hok
  have hr : r = (exec_and_finalize wmid entry cid env).1 := congrArg Prod.fst heq
  obtain ⟨hst, hres2, hexit, herr⟩ := exec_and_finalize_spec wmid entry cid env
  have hpost := post_probe_running env hrun
  constructor
  · rw [hr, hst, db_status_running_iff, hpost]
    by_cases hk : env.execKillsContainer <;> simp [hk]
  · intro h7
    constructor
    · rw [hr, hst]
      unfold db_status_after_exec_of
      simp [h7, exitNonzero]
    · rw [hr]
      exact (hexit (by rw [h7]; rfl)).trans h7

/-- Concrete state for the C3 witness: nothing exists yet, so the run
provisions a fresh record and container. -/
def C3world : World :=
  { db := [], docker := { containers := [], nextCid := 0 }, nextRid := 0, now := 0 }

/-- Environment for the C3 witness: the code exits with code 7, prints
nothing to stderr, and leaves the container alive. -/
def C3env : SvcEnv :=
  { pullOk := true, startOk := true, execOut := some "x", execErr := none
    execExit := some 7, execKillsContainer := false }

/-- The record and state the C3 witness run returns. -/
def C3res : Sandbox × World :=
  (provision_and_execute_sandbox_session C3world "a" "c" "img" "lim" C3env).toOption.getD
    (mkRow 0 "a" "img" 0, C3world)

/-- Witness for C3: on the concrete run with exit code 7 the recorded
status is Failed and the recorded exit code is 7. -/
theorem C3_witness : C3res.1.status = SandboxStatus.failed ∧ C3res.1.exit_code = some 7 := by
  have h := C3_finalize_decision_table C3world "a" "c" "img" "lim" C3env C3res.1 C3res.2
    (by unfold dockerWf; decide) (by rfl)
  exact h.2 rfl

/-- C6 (amended): after every execution the returned record carries the
execution's output as `execution_result` (with the `No output.`
fallback), and the exit code and stderr of this execution whenever they
are non-empty; an empty stderr is not written back, which is why an
older `error_message` survives (see the counterexample). -/
theorem C6_results_recorded_with_partial_update (w : World) (agent code image lim : String)
    (env : SvcEnv) (r : Sandbox) (wfin : World) (hwf : dockerWf w.docker)
    (hok : provision_and_execute_sandbox_session w agent code image lim env
      = Except.ok (r, wfin)) :
    r.execution_result = final_execution_result_of env
    ∧ (env.execExit.isSome = true → r.exit_code = env.execExit)
    ∧ (optStrTruthy env.execErr = true → r.error_message = env.execErr) := by
  obtain ⟨wmid, entry, cid, heq, _⟩ := provision_ok_decomp hwf hok
  have hr : r = (exec_and_finalize wmid entry cid env).1 := congrArg Prod.fst heq
  obtain ⟨_, hres2, hexit, herr⟩ := exec_and_finalize_spec wmid entry cid env
  rw [hr]
  exact ⟨hres2, hexit, herr⟩

/-- The record and state the C6 witness run returns. -/
def C6res : Sandbox × World :=
  (provision_and_execute_sandbox_session C6world "a" "c" "img" "lim" C6env).toOption.getD
    (mkRow 0 "a" "img" 0, C6world)

/-- Witness for the amended C6: on the concrete clean run the output
and exit code of the latest execution are recorded. -/
theorem C6_witness : C6res.1.execution_result = some "ok" ∧ C6res.1.exit_code = some 0 := by
  have h := C6_results_recorded_with_partial_update C6world "a" "c" "img" "lim" C6env
    C6res.1 C6res.2 (by unfold dockerWf; decide) (by rfl)
  exact ⟨h.1, h.2.1 rfl⟩

theorem deactivate_db_eq (db : List Sandbox) (now sid : Nat) :
    (deactivate_sandbox db now sid).2.1 =
      (updFirst (fun r => decide (r.id = sid))
        (fun r => { r with is_active := false, last_updated_at := now }) db).2 := by
  simp only [deactivate_sandbox]
  cases hf : (updFirst (fun r => decide (r.id = sid))
      (fun r => { r with is_active := false, last_updated_at := now }) db).1 <;> simp [hf]

theorem find?_after_deactivate (db : List Sandbox) (now : Nat) {sid : Nat}
    (h : ∃ x ∈ db, x.id = sid) :
    ∃ old, ((deactivate_sandbox db now sid).2.1).find? (fun y => decide (y.id = sid)) = some old
      ∧ old.is_active = false := by
  obtain ⟨x, hx, hid⟩ := h
  obtain ⟨u, hu⟩ := updFirst_isSome_of_mem (p := fun r => decide (r.id = sid))
    (f := fun r => { r with is_active := false, last_updated_at := now }) hx (by simp [hid])
  have hf := find?_after_updFirst (p := fun r => decide (r.id = sid))
    (f := fun r => { r with is_active := false, last_updated_at := now }) (fun y => rfl) hu
  obtain ⟨y, _, _, huy⟩ := updFirst_fst_some hu
  refine ⟨u, ?_, ?_⟩
  · rw [deactivate_db_eq]
    exact hf
  · rw [huy]

set_option maxHeartbeats 1000000 in
/-- C8: the container-id frame effect of the session flow.  When the
anchor record's container is observed running, the returned session is
the same record and its `container_id` is unchanged; when the container
is observed in any non-running state (the restart attempt can never
succeed, see C2), the returned session carries the freshly provisioned
container id — different from the old one — and the anchor record has
been deactivated in the store. -/
theorem C8_reuse_and_reprovision_container_id (w : World) (agent code image lim : String)
    (env : SvcEnv) (a : Sandbox) (cid : Nat) (r : Sandbox) (wfin : World)
    (hwf : dockerWf w.docker)
    (hbound : dbIdsBound w)
    (hcidlt : cid < w.docker.nextCid)
    (ha : lookupAnchor w.db agent image = some a)
    (hcid : a.container_id = some cid)
    (hok : provision_and_execute_sandbox_session w agent code image lim env
      = Except.ok (r, wfin)) :
    (get_container_status w.docker cid = some ContainerState.running →
      r.id = a.id ∧ r.container_id = some cid)
    ∧ (get_container_status w.docker cid ≠ some ContainerState.running →
      r.container_id = some w.docker.nextCid ∧ r.container_id ≠ some cid ∧
      ∃ old, wfin.db.find? (fun y => decide (y.id = a.id)) = some old
        ∧ old.is_active = false) := by
  have hamem := lookupAnchor_mem ha
  have haid : a.id ≠ w.nextRid := Nat.ne_of_lt (hbound a hamem)
  unfold provision_and_execute_sandbox_session at hok
  rw [ha] at hok
  simp only [] at hok
  rw [hcid] at hok
  simp only [] at hok
  constructor
  · intro hprobe
    rw [hprobe] at hok
    obtain ⟨u, hu0⟩ : ∃ u, (update_sandbox_status w.db w.now a.id SandboxStatus.running
        (some cid) none none (some 0)).1 = some u := update_fst_isSome ⟨a, hamem, rfl⟩
    rw [hu0] at hok
    set upd0 := update_sandbox_status w.db w.now a.id SandboxStatus.running
      (some cid) none none (some 0) with hupd0
    set W2 : World := { db := upd0.2.1, docker := w.docker, nextRid := w.nextRid, now := upd0.2.2 } with hW2
    simp only [Option.getD_some, Except.ok.injEq] at hok
    obtain ⟨hr, hw2⟩ : (exec_and_finalize W2 u cid env).1 = r ∧
        (exec_and_finalize W2 u cid env).2 = wfin := by
      rw [hok]
      exact ⟨rfl, rfl⟩
    have hres := exec_finalize_result_of_found w W2 cid env hu0 (by rw [hW2])
    have hufields := update_fst_fields hu0
    constructor
    · rw [← hr, hres]
      simp only [updApply]
      exact hufields.2.1
    · rw [← hr, hres]
      simp only [updApply, Option.isSome_none, Bool.false_eq_true, if_false]
      exact hufields.2.2.1 rfl
  · intro hnr
    cases hprobe : get_container_status w.docker cid with
    | none =>
      rw [hprobe] at hok
      simp only [Option.getD_none, Option.isSome_none, restartableState,
        Bool.and_self, Bool.false_eq_true, if_false] at hok
      obtain ⟨_, hid, hcid2, hfind⟩ := provisionNew_spec (by exact dockerWf_stop_and_remove hwf) hok
      refine ⟨hcid2, ?_, ?_⟩
      · intro hEq
        rw [hcid2] at hEq
        have hx : w.docker.nextCid = cid := Option.some_injective _ hEq
        exact (Nat.ne_of_lt hcidlt) hx.symm
      · have hpres := hfind a.id (by exact haid)
        obtain ⟨old, hold, hia⟩ := find?_after_deactivate w.db w.now ⟨a, hamem, rfl⟩
        refine ⟨old, ?_, hia⟩
        rw [hpres]
        exact hold
    | some s =>
      cases s
      case running => exact absurd hprobe hnr
      case otherState =>
        rw [hprobe] at hok
        simp only [Option.getD_some, Option.isSome_some, restartableState,
          Bool.false_and, Bool.false_eq_true, if_false] at hok
        obtain ⟨_, hid, hcid2, hfind⟩ := provisionNew_spec (by exact dockerWf_stop_and_remove hwf) hok
        refine ⟨hcid2, ?_, ?_⟩
        · intro hEq
          rw [hcid2] at hEq
          have hx : w.docker.nextCid = cid := Option.some_injective _ hEq
          exact (Nat.ne_of_lt hcidlt) hx.symm
        · have hpres := hfind a.id (by exact haid)
          obtain ⟨old, hold, hia⟩ := find?_after_deactivate w.db w.now ⟨a, hamem, rfl⟩
          refine ⟨old, ?_, hia⟩
          rw [hpres]
          exact hold
      all_goals
        rw [hprobe] at hok
      all_goals
        simp only [Option.getD_some, Option.isSome_some, restartableState,
          Bool.and_self, if_true] at hok
      all_goals
        obtain ⟨_, hid, hcid2, hfind⟩ := provisionNew_spec (by exact hwf) hok
      all_goals
        refine ⟨hcid2, fun hEq => ?_, ?_⟩
      all_goals
        try (rw [hcid2] at hEq
             exact (Nat.ne_of_lt hcidlt) (Option.some_injective _ hEq).symm)
      all_goals
        have hpres := hfind a.id (by exact haid)
      all_goals
        obtain ⟨old, hold, hia⟩ := find?_after_deactivate w.db w.now ⟨a, hamem, rfl⟩
      all_goals
        refine ⟨old, ?_, hia⟩
      all_goals
        rw [hpres]
      all_goals
        exact hold

/-- Concrete state for the C8 witness: the anchor record of caller `a`
points at container 1, which the daemon reports as running. -/
def C8world : World :=
  { db := [{ mkRow 0 "a" "img" 0 with container_id := some 1 }]
    docker := { containers := [{ cid := 1, cname := "sandbox-a", cstate := ContainerState.running }], nextCid := 2 }
    nextRid := 1
    now := 1 }

/-- Environment for the C8 witness: a clean execution. -/
def C8env : SvcEnv :=
  { pullOk := true, startOk := true, execOut := some "x", execErr := none
    execExit := some 0, execKillsContainer := false }

/-- The record and state the C8 witness run returns. -/
def C8res : Sandbox × World :=
  (provision_and_execute_sandbox_session C8world "a" "c" "img" "lim" C8env).toOption.getD
    (mkRow 0 "a" "img" 0, C8world)

/-- Witness for C8: with the anchor's container observed running, the
returned session is the anchor record itself and its container id is
unchanged. -/
theorem C8_witness : C8res.1.id = 0 ∧ C8res.1.container_id = some 1 := by
  have h := C8_reuse_and_reprovision_container_id C8world "a" "c" "img" "lim" C8env
    ({ mkRow 0 "a" "img" 0 with container_id := some 1 }) 1 C8res.1 C8res.2
    (by unfold dockerWf; decide) (by unfold dbIdsBound; decide) (by decide)
    (by rfl) rfl (by rfl)
  exact h.1 rfl

/-- The effect of one cleanup iteration on the record store alone:
active rows are kept, an inactive row is deleted by id. -/
def dbCleanupStep (db : List Sandbox) (sb : Sandbox) : List Sandbox :=
  if sb.is_active then db else (removeFirst (fun r => decide (r.id = sb.id)) db).2

theorem cleanupStep_db (w : World) (sb : Sandbox) :
    (cleanupStep w sb).db = dbCleanupStep w.db sb := by
  unfold cleanupStep dbCleanupStep delete_sandbox
  by_cases h : sb.is_active
  · simp [h]
  · cases hc : sb.container_id with
    | none => simp [h]
    | some cid =>
      cases hf : find_container_by_name w.docker ("sandbox-" ++ sb.llm_agent_id) with
      | none => simp [h, hf]
      | some c =>
        by_cases hcc : c.cid = cid <;> simp [h, hf, hcc]

theorem cleanup_foldl_db (s : List Sandbox) :
    ∀ (w : World), (s.foldl cleanupStep w).db = s.foldl dbCleanupStep w.db := by
  induction s with
  | nil => intro w; rfl
  | cons sb rest ih =>
    intro w
    rw [List.foldl_cons, List.foldl_cons, ih, cleanupStep_db]

theorem removeFirst_append_of_ne {pre tail : List Sandbox} {sb : Sandbox}
    (hpre : ∀ x ∈ pre, ¬ (x.id = sb.id)) :
    (removeFirst (fun r => decide (r.id = sb.id)) (pre ++ sb :: tail)).2 = pre ++ tail := by
  induction pre with
  | nil => simp [removeFirst]
  | cons x xs ih =>
    have hx : ¬ (x.id = sb.id) := hpre x (by simp)
    simp [removeFirst, hx, ih (fun y hy => hpre y (by simp [hy]))]

theorem dbCleanup_foldl_filter (s : List Sandbox) :
    ∀ (pre : List Sandbox), ((pre ++ s).map Sandbox.id).Nodup →
      (∀ x ∈ pre, x.is_active = true) →
      s.foldl dbCleanupStep (pre ++ s) = pre ++ s.filter (fun sb => sb.is_active) := by
  induction s with
  | nil => intro pre _ _; simp
  | cons sb rest ih =>
    intro pre hnd hpre
    rw [List.foldl_cons]
    by_cases hb : sb.is_active
    · have hstep : dbCleanupStep (pre ++ sb :: rest) sb = (pre ++ [sb]) ++ rest := by
        simp [dbCleanupStep, hb]
      rw [hstep]
      have hnd2 : (((pre ++ [sb]) ++ rest).map Sandbox.id).Nodup := by
        simpa using hnd
      have hpre2 : ∀ x ∈ pre ++ [sb], x.is_active = true := by
        intro x hx
        rcases List.mem_append.mp hx with hx | hx
        · exact hpre x hx
        · rw [List.mem_singleton.mp hx]
          exact hb
      rw [ih (pre ++ [sb]) hnd2 hpre2]
      simp [hb]
    · have hsbid : ∀ x ∈ pre, ¬ (x.id = sb.id) := by
        intro x hx hEq
        have hnd3 := hnd
        rw [List.map_append, List.nodup_append] at hnd3
        have hmem2 : x.id ∈ (sb :: rest).map Sandbox.id := by
          rw [hEq]
          simp
        exact hnd3.2.2 (List.mem_map_of_mem Sandbox.id hx) hmem2
      have hstep : dbCleanupStep (pre ++ sb :: rest) sb = pre ++ rest := by
        simp only [dbCleanupStep, hb, Bool.false_eq_true, if_false]
        exact removeFirst_append_of_ne hsbid
      rw [hstep]
      have hsub : (pre ++ rest).Sublist (pre ++ sb :: rest) :=
        (List.Sublist.refl pre).append (List.sublist_cons_self sb rest)
      have hnd2 : ((pre ++ rest).map Sandbox.id).Nodup :=
        List.Nodup.sublist (hsub.map Sandbox.id) hnd
      rw [ih pre hnd2 hpre]
      simp [hb]

theorem cleanup_foldl_id {s : List Sandbox} :
    ∀ {w : World}, (∀ sb ∈ s, sb.is_active = true) → s.foldl cleanupStep w = w := by
  induction s with
  | nil => intro w _; rfl
  | cons sb rest ih =>
    intro w h
    rw [List.foldl_cons]
    have hstep : cleanupStep w sb = w := by
      simp [cleanupStep, h sb (by simp)]
    rw [hstep]
    exact ih (fun x hx => h x (by simp [hx]))

theorem cleanup_db_filter (w : World) (hnd : (w.db.map Sandbox.id).Nodup) :
    (cleanup_inactive_sandboxes w).db = w.db.filter (fun sb => sb.is_active) := by
  unfold cleanup_inactive_sandboxes get_all_sandboxes
  rw [cleanup_foldl_db]
  have h := dbCleanup_foldl_filter w.db [] (by simpa using hnd) (by simp)
  simpa using h

/-- C9: `cleanup_inactive_sandboxes` is idempotent.  One run deletes
exactly the inactive rows (and their containers); after it, every
remaining row is active, so a second run — with no new inactive rows in
between — iterates over active rows only and changes neither the store
nor the containers.  Duplicate primary keys are impossible in the
source (`id` is the table's primary key), which the `Nodup` hypothesis
captures. -/
theorem C9_cleanup_idempotent (w : World) (hnd : (w.db.map Sandbox.id).Nodup) :
    cleanup_inactive_sandboxes (cleanup_inactive_sandboxes w) = cleanup_inactive_sandboxes w := by
  have hact : ∀ sb ∈ (cleanup_inactive_sandboxes w).db, sb.is_active = true := by
    rw [cleanup_db_filter w hnd]
    intro sb hsb
    exact List.of_mem_filter hsb
  calc cleanup_inactive_sandboxes (cleanup_inactive_sandboxes w)
      = ((cleanup_inactive_sandboxes w).db).foldl cleanupStep (cleanup_inactive_sandboxes w) := rfl
    _ = cleanup_inactive_sandboxes w := cleanup_foldl_id hact

/-- Concrete state for the C9 witness: one inactive row with a
lingering container, one active row. -/
def C9world : World :=
  { db := [{ mkRow 0 "a" "img" 0 with container_id := some 1, is_active := false },
           { mkRow 1 "b" "img" 0 with container_id := some 2 }]
    docker := { containers := [{ cid := 1, cname := "sandbox-a", cstate := ContainerState.exited },
                               { cid := 2, cname := "sandbox-b", cstate := ContainerState.running }]
                nextCid := 3 }
    nextRid := 2
    now := 2 }

/-- Witness for C9: on the concrete state, running the eviction sweep
twice equals running it once. -/
theorem C9_witness :
    cleanup_inactive_sandboxes (cleanup_inactive_sandboxes C9world)
      = cleanup_inactive_sandboxes C9world :=
  C9_cleanup_idempotent C9world (by decide)
